import Mathlib

set_option maxRecDepth 40000

/-!
Verification development for the Task-Reminder application core:
offline sync queue, conflict detection, recurrence expansion, local
durable store reads, and reminder scheduling.

Calendar dates are modelled at day granularity.  A month index counts
months from January 2000 (the application only handles contemporary
dates); a civil date is a month index together with a 1-based
day-of-month.  JavaScript Date normalization (day and month overflow
roll forward) is modelled by explicit normalization functions.
-/

/-- Gregorian leap-year test for the year `y` (as in JavaScript Date). -/
def isLeap (y : Nat) : Bool :=
  y % 4 == 0 && (y % 100 != 0 || y % 400 == 0)

/-- Number of days in the month with index `m` (months counted from
January 2000, so `m = 12 * (year - 2000) + month0`). -/
def monthLen (m : Nat) : Nat :=
  match m % 12 with
  | 1 => if isLeap (2000 + m / 12) then 29 else 28
  | 3 => 30
  | 5 => 30
  | 8 => 30
  | 10 => 30
  | _ => 31

/-- Day number (days since 2000-01-01) of the first day of month `m`. -/
def monthStart : Nat → Nat
  | 0 => 0
  | m + 1 => monthStart m + monthLen m

/-- A civil calendar date: month index (from January 2000) and 1-based
day of month. -/
structure CivilDate where
  mo : Nat
  day : Nat
deriving DecidableEq

/-- Absolute day number of a civil date (days since 2000-01-01). -/
def CivilDate.dayNum (c : CivilDate) : Nat :=
  monthStart c.mo + (c.day - 1)

/-- Roll day-of-month overflow forward into later months, as the
JavaScript Date object does for out-of-range day components.  The fuel
argument bounds the recursion; `normalizeDate` supplies enough. -/
def normalizeAux : Nat → Nat → Nat → CivilDate
  | 0, m, d => ⟨m, d⟩
  | fuel + 1, m, d =>
    if d ≤ monthLen m then ⟨m, d⟩
    else normalizeAux fuel (m + 1) (d - monthLen m)

/-- The civil date denoted by month index `m` and (possibly
out-of-range) day component `d`, following JavaScript Date
normalization. -/
def normalizeDate (m d : Nat) : CivilDate := normalizeAux d m d

theorem monthLen_ge (m : Nat) : 28 ≤ monthLen m := by
  unfold monthLen
  split
  · split <;> norm_num
  all_goals norm_num

theorem monthStart_lt_succ (m : Nat) : monthStart m < monthStart (m + 1) := by
  have h := monthLen_ge m
  show monthStart m < monthStart m + monthLen m
  omega

theorem monthStart_strictMono : StrictMono monthStart :=
  strictMono_nat_of_lt_succ monthStart_lt_succ

theorem normalizeAux_dayNum :
    ∀ fuel m d, 1 ≤ d →
      (normalizeAux fuel m d).dayNum = monthStart m + (d - 1) := by
  intro fuel
  induction fuel with
  | zero => intro m d _; rfl
  | succ fuel ih =>
    intro m d hd
    unfold normalizeAux
    split
    · rfl
    · next hgt =>
      have hlt : monthLen m < d := by omega
      have h1 : 1 ≤ d - monthLen m := by omega
      rw [ih (m + 1) (d - monthLen m) h1]
      show monthStart m + monthLen m + (d - monthLen m - 1) = monthStart m + (d - 1)
      omega

theorem normalizeDate_dayNum (m d : Nat) (hd : 1 ≤ d) :
    (normalizeDate m d).dayNum = monthStart m + (d - 1) :=
  normalizeAux_dayNum d m d hd

/-! ## Data model

Mirrors the `OfflineTask`, `OfflineTaskList` and `SyncQueueItem`
interfaces of the IndexedDB wrapper (`lib/indexedDB.ts`).  Timestamps
are naturals (milliseconds); `due_date` is a civil date; opaque string
fields stay strings. -/

inductive Priority
  | low
  | medium
  | high
deriving DecidableEq

inductive Recurrence
  | none
  | daily
  | weekly
  | monthly
deriving DecidableEq

inductive SyncStatus
  | synced
  | pending
  | updated
  | deleted
deriving DecidableEq

structure OfflineTask where
  id : String
  title : String
  description : Option String
  due_date : CivilDate
  due_time : String
  priority : Priority
  completed : Bool
  user_id : String
  list_id : Option String
  email_reminder : Bool
  push_notification : Bool
  notification_time : String
  recurrence : Recurrence
  recurrence_id : Option String
  is_recurring_parent : Bool
  sync_status : SyncStatus
  created_at : Nat
  updated_at : Nat
  offline_created : Bool
deriving DecidableEq

structure OfflineTaskList where
  id : String
  name : String
  user_id : String
  sync_status : SyncStatus
  created_at : Nat
  updated_at : Nat
  offline_created : Bool
deriving DecidableEq

structure SyncQueueItem where
  id : String
  type : String
  action : String
  data : String
  timestamp : Nat
  retries : Nat
deriving DecidableEq

/-! ## Local Durable Store (IndexedDBManager)

The object stores are modelled as lists of records keyed by `id`. -/

/-- `IndexedDBManager.getTasks(userId)`: all of the user's task rows
whose `sync_status` is not `deleted`. -/
def getTasks (store : List OfflineTask) (userId : String) : List OfflineTask :=
  store.filter (fun t => decide (t.user_id = userId ∧ t.sync_status ≠ SyncStatus.deleted))

/-- `IndexedDBManager.getTask(taskId)`: lookup by key, hiding
soft-deleted rows. -/
def getTask (store : List OfflineTask) (taskId : String) : Option OfflineTask :=
  match store.find? (fun t => t.id == taskId) with
  | some t => if t.sync_status ≠ SyncStatus.deleted then some t else none
  | Option.none => Option.none

/-- `IndexedDBManager.saveTask(task)`: upsert keyed by `id`
(IndexedDB `put`). -/
def saveTask (store : List OfflineTask) (task : OfflineTask) : List OfflineTask :=
  if store.any (fun t => t.id == task.id) then
    store.map (fun t => if t.id == task.id then task else t)
  else
    store ++ [task]

/-- `IndexedDBManager.deleteTask(taskId)`: hard delete by key. -/
def deleteTask (store : List OfflineTask) (taskId : String) : List OfflineTask :=
  store.filter (fun t => t.id ≠ taskId)

/-- `IndexedDBManager.getTaskLists(userId)`: all of the user's list rows
whose `sync_status` is not `deleted`. -/
def getTaskLists (store : List OfflineTaskList) (userId : String) : List OfflineTaskList :=
  store.filter (fun l => decide (l.user_id = userId ∧ l.sync_status ≠ SyncStatus.deleted))

/-! ## Recurrence Expander (useRecurringTasks.ts)

`generateRecurringInstances` walks i = 1..instanceCount, computes the
i-th due date from the parent's due date with JavaScript Date
arithmetic (`setDate` / `setMonth` plus normalization), breaks as soon
as a computed date passes one year from today, and otherwise emits an
instance record copied from the parent. -/

/-- `getInstanceCount`: policy cap per recurrence rule. -/
def getInstanceCount : Recurrence → Nat
  | Recurrence.daily => 30
  | Recurrence.weekly => 52
  | Recurrence.monthly => 12
  | Recurrence.none => 0

/-- Due date of the i-th generated instance: `setDate(base.getDate() + i)`
for daily, `setDate(base.getDate() + 7 * i)` for weekly and
`setMonth(base.getMonth() + i)` for monthly, with Date normalization. -/
def nextDueDate (r : Recurrence) (base : CivilDate) (i : Nat) : CivilDate :=
  match r with
  | Recurrence.daily => normalizeDate base.mo (base.day + i)
  | Recurrence.weekly => normalizeDate base.mo (base.day + 7 * i)
  | Recurrence.monthly => normalizeDate (base.mo + i) base.day
  | Recurrence.none => base

/-- `new Date(now.getFullYear() + 1, now.getMonth(), now.getDate())`:
the generation horizon, one year from today. -/
def oneYearFromNow (today : CivilDate) : CivilDate :=
  normalizeDate (today.mo + 12) today.day

/-- The instance record literal of `generateRecurringInstances`
(lines 65-84): all reminder/list/priority fields copied from the
parent; fresh id; computed due date; recurrence forced to none;
recurrence_id forced to the parent id; is_recurring_parent false;
local bookkeeping fields set from the generation context. -/
def mkRecurringInstance (parent : OfflineTask) (userId newId : String)
    (nowTs : Nat) (due : CivilDate) : OfflineTask :=
  { id := newId
    title := parent.title
    description := parent.description
    due_date := due
    due_time := parent.due_time
    priority := parent.priority
    completed := false
    user_id := userId
    list_id := parent.list_id
    email_reminder := parent.email_reminder
    push_notification := parent.push_notification
    notification_time := parent.notification_time
    recurrence := Recurrence.none
    recurrence_id := some parent.id
    is_recurring_parent := false
    sync_status := SyncStatus.pending
    created_at := nowTs
    updated_at := nowTs
    offline_created := true }

/-- The generation loop of `generateRecurringInstances`: `fuel`
iterations remain, `i` is the current instance index, `cap` the day
number of the one-year horizon; the loop breaks when the computed date
passes the horizon. -/
def genInstancesAux (parent : OfflineTask) (userId : String)
    (freshIds : Nat → String) (nowTs : Nat) (r : Recurrence) (cap : Nat) :
    Nat → Nat → List OfflineTask
  | 0, _ => []
  | fuel + 1, i =>
    let due := nextDueDate r parent.due_date i
    if cap < due.dayNum then []
    else
      mkRecurringInstance parent userId (freshIds i) nowTs due ::
        genInstancesAux parent userId freshIds nowTs r cap fuel (i + 1)

/-- `generateRecurringInstances(parentTask, recurrenceType, instanceCount)`
with the ambient user, clock, id generator and today's date made
explicit. -/
def generateRecurringInstances (parent : OfflineTask) (r : Recurrence)
    (instanceCount : Nat) (userId : String) (freshIds : Nat → String)
    (nowTs : Nat) (today : CivilDate) : List OfflineTask :=
  if r = Recurrence.none then []
  else
    genInstancesAux parent userId freshIds nowTs r
      (oneYearFromNow today).dayNum instanceCount 1

/-! ## Completion-driven regeneration (useRecurringTasks.ts and
TaskContext.tsx) -/

/-- `getParentRecurrenceType(parentId)`: the parent's recurrence from
the store, or none when the parent is missing or soft-deleted. -/
def getParentRecurrenceType (store : List OfflineTask) (parentId : String) : Recurrence :=
  match getTask store parentId with
  | some t => t.recurrence
  | Option.none => Recurrence.none

/-- The next-instance record literal of `generateNextInstance`
(lines 250-269): fields copied from the completed task, linked to the
series parent. -/
def mkNextInstance (completedTask : OfflineTask) (userId newId : String)
    (nowTs : Nat) (parentId : String) (due : CivilDate) : OfflineTask :=
  { id := newId
    title := completedTask.title
    description := completedTask.description
    due_date := due
    due_time := completedTask.due_time
    priority := completedTask.priority
    completed := false
    user_id := userId
    list_id := completedTask.list_id
    email_reminder := completedTask.email_reminder
    push_notification := completedTask.push_notification
    notification_time := completedTask.notification_time
    recurrence := Recurrence.none
    recurrence_id := some parentId
    is_recurring_parent := false
    sync_status := SyncStatus.pending
    created_at := nowTs
    updated_at := nowTs
    offline_created := true }

/-- `generateNextInstance(completedTask, recurrenceType)`: one
rule-step forward from the completed task's due date; null when the
next date passes one year from now or when a non-completed instance of
the same series already sits on that date. -/
def generateNextInstance (store : List OfflineTask) (userId : String)
    (completedTask : OfflineTask) (r : Recurrence) (today : CivilDate)
    (newId : String) (nowTs : Nat) : Option OfflineTask :=
  let nextD := nextDueDate r completedTask.due_date 1
  if (oneYearFromNow today).dayNum < nextD.dayNum then Option.none
  else
    let parentId := completedTask.recurrence_id.getD completedTask.id
    match (getTasks store userId).find? (fun t =>
        decide (t.recurrence_id = some parentId ∧ t.due_date = nextD ∧
          t.completed = false)) with
    | some _ => Option.none
    | Option.none => some (mkNextInstance completedTask userId newId nowTs parentId nextD)

/-- `completeRecurringTask(task)`: mark the task completed in the
store, then, when the task belongs to a recurrence series, generate
and save the next instance.  Returns the updated store and the created
instance, if any. -/
def completeRecurringTask (store : List OfflineTask) (userId : String)
    (task : OfflineTask) (today : CivilDate) (newId : String) (nowTs : Nat) :
    List OfflineTask × Option OfflineTask :=
  let updatedTask := { task with completed := true }
  let store1 := saveTask store updatedTask
  if task.recurrence ≠ Recurrence.none ∨ task.recurrence_id.isSome then
    let parentId := task.recurrence_id.getD task.id
    let rt := if task.recurrence ≠ Recurrence.none then task.recurrence
      else getParentRecurrenceType store1 parentId
    if rt ≠ Recurrence.none then
      match generateNextInstance store1 userId task rt today newId nowTs with
      | some ni => (saveTask store1 ni, some ni)
      | Option.none => (store1, Option.none)
    else (store1, Option.none)
  else (store1, Option.none)

/-- The completion branch of `TaskContext.updateTask`: the recurring
completion handler runs only when the task was not already completed
and belongs to a recurrence series; otherwise the task is just saved. -/
def updateTaskCompletion (store : List OfflineTask) (userId id : String)
    (today : CivilDate) (newId : String) (nowTs : Nat) :
    List OfflineTask × Option OfflineTask :=
  match store.find? (fun t => t.id == id) with
  | Option.none => (store, Option.none)
  | some old =>
    if old.completed = false ∧
        (old.recurrence ≠ Recurrence.none ∨ old.recurrence_id.isSome) then
      completeRecurringTask store userId { old with completed := true } today newId nowTs
    else (saveTask store { old with completed := true }, Option.none)

/-! ## Series deletion (useRecurringTasks.ts `deleteRecurringSeries`) -/

/-- `deleteRecurringSeries(taskId, isParent)`: resolve the series
parent id (the task id itself for a parent, the instance's
`recurrence_id` otherwise), collect every visible task whose id or
`recurrence_id` equals it, and delete each by id. -/
def deleteRecurringSeries (store : List OfflineTask) (userId taskId : String)
    (isParent : Bool) : List OfflineTask :=
  let allTasks := getTasks store userId
  let parentId := if isParent then some taskId
    else ((allTasks.find? (fun t => t.id == taskId)).bind (fun t => t.recurrence_id))
  match parentId with
  | Option.none => store
  | some p =>
    let seriesToDelete := allTasks.filter (fun t =>
      decide (t.id = p ∨ t.recurrence_id = some p))
    seriesToDelete.foldl (fun s t => deleteTask s t.id) store

/-! ## Sync Engine: queue drain (useOfflineSync.ts `syncOfflineData`)

Each queue entry is attempted once per drain; `ok` tells whether
`processSyncItem` succeeds for the entry.  A successful entry is
removed; a failed entry has its retry counter incremented and is
removed once the counter reaches 3, otherwise written back. -/

/-- One entry's fate in a drain pass: removed on success; on failure
the retry counter is incremented and the entry is removed once the
counter reaches 3, otherwise written back. -/
def drainItem (ok : SyncQueueItem → Bool) (item : SyncQueueItem) :
    Option SyncQueueItem :=
  if ok item then Option.none
  else if 3 ≤ item.retries + 1 then Option.none
  else some { item with retries := item.retries + 1 }

def drainQueue (ok : SyncQueueItem → Bool) (queue : List SyncQueueItem) :
    List SyncQueueItem :=
  queue.filterMap (drainItem ok)

/-- `IndexedDBManager.addToSyncQueue`: fresh id and timestamp, retry
counter starting at 0. -/
def addToSyncQueue (queue : List SyncQueueItem) (newId : String)
    (type action data : String) (nowTs : Nat) : List SyncQueueItem :=
  queue ++ [{ id := newId, type := type, action := action, data := data,
              timestamp := nowTs, retries := 0 }]

/-! ## Remote Task Service: batch sync conflict detection
(server `handleTaskUpdate`) -/

structure ServerTaskRow where
  id : String
  user_id : String
  updated_at : Nat
  data : String
deriving DecidableEq

structure SyncConflict where
  id : String
  type : String
  reason : String
  serverTimestamp : Nat
  clientTimestamp : Nat
deriving DecidableEq

/-- `handleTaskUpdate(data, userId, clientTimestamp, results)`: fetch
the server row for the task id scoped to the user; when the server's
`updated_at` is strictly newer than the client timestamp, record a
conflict and leave the row untouched; otherwise apply the update with
a server-assigned `updated_at`.  Returns the rows after the call and
the conflicts it appended. -/
def handleTaskUpdate (db : List ServerTaskRow) (userId changeId payload : String)
    (clientTimestamp nowTs : Nat) : List ServerTaskRow × List SyncConflict :=
  let applied := db.map (fun r =>
    if r.id == changeId && r.user_id == userId then
      { r with data := payload, updated_at := nowTs }
    else r)
  match db.find? (fun r => r.id == changeId && r.user_id == userId) with
  | some row =>
    if clientTimestamp < row.updated_at then
      (db, [{ id := changeId, type := "task", reason := "Server version is newer",
              serverTimestamp := row.updated_at, clientTimestamp := clientTimestamp }])
    else (applied, [])
  | Option.none => (applied, [])

/-! ## Reminder Scheduler: lead-time lookup and client scheduling
(useNotifications.ts, useEmailNotifications.ts, server helper) -/

/-- The twelve enumerated notification lead options. -/
def notificationLeadOptions : List String :=
  ["3min", "5min", "10min", "15min", "20min", "25min", "30min",
   "45min", "50min", "1hour", "2hours", "1day"]

/-- The `timingMap` object literal shared verbatim by the client push
hook, the client email hook and the server helper: lead option to
milliseconds. -/
def timingMapLookup (timing : String) : Option Nat :=
  if timing = "3min" then some (3 * 60 * 1000)
  else if timing = "5min" then some (5 * 60 * 1000)
  else if timing = "10min" then some (10 * 60 * 1000)
  else if timing = "15min" then some (15 * 60 * 1000)
  else if timing = "20min" then some (20 * 60 * 1000)
  else if timing = "25min" then some (25 * 60 * 1000)
  else if timing = "30min" then some (30 * 60 * 1000)
  else if timing = "45min" then some (45 * 60 * 1000)
  else if timing = "50min" then some (50 * 60 * 1000)
  else if timing = "1hour" then some (60 * 60 * 1000)
  else if timing = "2hours" then some (2 * 60 * 60 * 1000)
  else if timing = "1day" then some (24 * 60 * 60 * 1000)
  else Option.none

/-- `useNotifications.getNotificationDelay`: push lead lookup, 10
minutes when the value is not one of the twelve options. -/
def getNotificationDelay (timing : String) : Nat :=
  (timingMapLookup timing).getD (10 * 60 * 1000)

/-- `useEmailNotifications.getNotificationDelay`: email lead lookup, 1
hour when the value is not one of the twelve options. -/
def emailNotificationDelay (timing : String) : Nat :=
  (timingMapLookup timing).getD (60 * 60 * 1000)

/-- Server `calculateNotificationTime(dueDate, dueTime, notificationTime)`:
due moment minus the lead, defaulting the lead to 10 minutes. -/
def serverCalculateNotificationTime (dueMs : Int) (timing : String) : Int :=
  dueMs - (timingMapLookup timing).getD (10 * 60 * 1000)

/-- `getTimingLabel`: human label for the lead option, defaulting to
10 minutes. -/
def getTimingLabel (timing : String) : String :=
  if timing = "3min" then "3 minutes"
  else if timing = "5min" then "5 minutes"
  else if timing = "10min" then "10 minutes"
  else if timing = "15min" then "15 minutes"
  else if timing = "20min" then "20 minutes"
  else if timing = "25min" then "25 minutes"
  else if timing = "30min" then "30 minutes"
  else if timing = "45min" then "45 minutes"
  else if timing = "50min" then "50 minutes"
  else if timing = "1hour" then "1 hour"
  else if timing = "2hours" then "2 hours"
  else if timing = "1day" then "1 day"
  else "10 minutes"

/-- Numeric value of a run of decimal digit characters. -/
def digitsToNat : List Char → Nat → Nat
  | [], acc => acc
  | c :: rest, acc => digitsToNat rest (acc * 10 + (c.toNat - 48))

/-- Split a character list at the first colon. -/
def splitAtColon : List Char → List Char × List Char
  | [] => ([], [])
  | c :: rest =>
    if c = ':' then ([], rest)
    else (c :: (splitAtColon rest).1, (splitAtColon rest).2)

/-- Milliseconds since local midnight denoted by an `HH:MM` string
(the time component of `new Date(due_date + "T" + due_time)`). -/
def parseTimeMs (s : String) : Nat :=
  digitsToNat (splitAtColon s.data).1 0 * 3600000 +
    digitsToNat (splitAtColon s.data).2 0 * 60000

/-- `new Date(task.due_date + "T" + task.due_time).getTime()` in
milliseconds since 2000-01-01T00:00. -/
def dueDateTimeMs (t : OfflineTask) : Nat :=
  t.due_date.dayNum * 86400000 + parseTimeMs t.due_time

inductive NotifStatus
  | pending
  | synced
  | cancelled
deriving DecidableEq

/-- The `ScheduledNotification` record of useNotifications.ts. -/
structure ScheduledNotificationRec where
  id : String
  taskId : String
  title : String
  body : String
  scheduledTime : Int
  notificationTime : String
  taskData : OfflineTask
  sync_status : NotifStatus
deriving DecidableEq

/-- `scheduleTaskNotification(task, customTime)`: nothing for tasks
without push or already completed; fire time is the due moment minus
the lead (or the custom time); nothing when the fire time is not
strictly in the future; otherwise the scheduled-notification record. -/
def scheduleTaskNotification (nowMs : Int) (newId : String)
    (customTime : Option Int) (task : OfflineTask) :
    Option ScheduledNotificationRec :=
  if task.push_notification = false ∨ task.completed = true then Option.none
  else
    let timing := if task.notification_time = "" then "10min" else task.notification_time
    let reminderTime := customTime.getD
      ((dueDateTimeMs task : Int) - (getNotificationDelay timing : Int))
    if reminderTime ≤ nowMs then Option.none
    else some
      { id := newId
        taskId := task.id
        title := "Task Due Soon!"
        body := task.title ++ " is due in " ++ getTimingLabel timing
        scheduledTime := reminderTime
        notificationTime := timing
        taskData := task
        sync_status := NotifStatus.pending }

/-! ## Reminder Scheduler state (useNotifications.ts)

`sched` models the persisted `scheduledNotifications` array; `timers`
models the deferred callbacks registered through `setTimeout` in
`scheduleLocalNotification` — the source keeps no handle to these
timeouts, so nothing ever clears them. -/

structure SchedulerState where
  sched : List ScheduledNotificationRec
  timers : List ScheduledNotificationRec
deriving DecidableEq

/-- The payload `showTaskNotification` hands to the Notification
constructor when it runs. -/
structure ShownNotification where
  title : String
  body : String
  taskId : String
  notificationTime : String
  scheduledTime : Int
deriving DecidableEq

/-- `showTaskNotification(notification)`: nothing without permission;
otherwise display the notification and drop its record from the
persisted list. -/
def showTaskNotification (permission : Bool) (st : SchedulerState)
    (n : ScheduledNotificationRec) : SchedulerState × Option ShownNotification :=
  if permission = false then (st, Option.none)
  else
    ({ st with sched := st.sched.filter (fun m => m.id ≠ n.id) },
     some ⟨n.title, n.body, n.taskId, n.notificationTime, n.scheduledTime⟩)

/-- `scheduleLocalNotification(notification)`: show immediately when
the scheduled time has passed, otherwise register a deferred callback
(`setTimeout`) carrying the record. -/
def scheduleLocalNotification (nowMs : Int) (permission : Bool)
    (st : SchedulerState) (n : ScheduledNotificationRec) :
    SchedulerState × Option ShownNotification :=
  if n.scheduledTime - nowMs ≤ 0 then showTaskNotification permission st n
  else ({ st with timers := st.timers ++ [n] }, Option.none)

/-- The full `scheduleTaskNotification` flow: build the record, append
it to the persisted list, and register the local callback. -/
def hookScheduleTaskNotification (nowMs : Int) (permission : Bool)
    (newId : String) (st : SchedulerState) (task : OfflineTask) :
    SchedulerState × Option ShownNotification :=
  match scheduleTaskNotification nowMs newId Option.none task with
  | Option.none => (st, Option.none)
  | some n => scheduleLocalNotification nowMs permission
      { st with sched := st.sched ++ [n] } n

/-- `cancelTaskNotifications(taskId)`: filter the persisted records
for the task id.  The deferred callbacks in `timers` are untouched —
the source never calls `clearTimeout`. -/
def cancelTaskNotifications (st : SchedulerState) (taskId : String) : SchedulerState :=
  { st with sched := st.sched.filter (fun n => n.taskId ≠ taskId) }

/-- `updateTaskNotification(task)`: cancel the task's persisted
records, then schedule anew when the task still qualifies. -/
def updateTaskNotification (nowMs : Int) (permission : Bool) (newId : String)
    (st : SchedulerState) (task : OfflineTask) :
    SchedulerState × Option ShownNotification :=
  let st1 := cancelTaskNotifications st task.id
  if task.push_notification = true ∧ task.completed = false then
    hookScheduleTaskNotification nowMs permission newId st1 task
  else (st1, Option.none)

/-- A deferred callback registered earlier fires: the payload it
captured is shown, regardless of the current persisted records. -/
def fireTimer (permission : Bool) (st : SchedulerState)
    (n : ScheduledNotificationRec) : SchedulerState × Option ShownNotification :=
  if st.timers.contains n then
    showTaskNotification permission { st with timers := st.timers.erase n } n
  else (st, Option.none)

/-! ## Concrete fixtures for witnesses and counterexamples -/

/-- A plain synced task of user u1 (due 2024-06-03). -/
def sampleTaskSynced : OfflineTask :=
  { id := "t1", title := "Standup", description := Option.none
    due_date := ⟨293, 3⟩, due_time := "09:00", priority := Priority.medium
    completed := false, user_id := "u1", list_id := Option.none
    email_reminder := false, push_notification := true
    notification_time := "1hour", recurrence := Recurrence.none
    recurrence_id := Option.none, is_recurring_parent := false
    sync_status := SyncStatus.synced, created_at := 0, updated_at := 0
    offline_created := false }

/-- A soft-deleted task of user u1. -/
def sampleTaskDeleted : OfflineTask :=
  { sampleTaskSynced with id := "t2", sync_status := SyncStatus.deleted }

/-- A soft-deleted list of user u1. -/
def sampleListDeleted : OfflineTaskList :=
  { id := "l2", name := "Old", user_id := "u1"
    sync_status := SyncStatus.deleted, created_at := 0, updated_at := 0
    offline_created := false }

/-- A synced list of user u1. -/
def sampleListSynced : OfflineTaskList :=
  { sampleListDeleted with id := "l1", name := "Home", sync_status := SyncStatus.synced }

/-- A recurring monthly parent due 2024-01-31. -/
def monthlyParent : OfflineTask :=
  { sampleTaskSynced with
    id := "p1"
    title := "Rent"
    due_date := ⟨288, 31⟩
    recurrence := Recurrence.monthly
    is_recurring_parent := true }

/-- A recurring weekly parent due 2024-06-03. -/
def weeklyParent : OfflineTask :=
  { sampleTaskSynced with
    id := "p1"
    due_date := ⟨293, 3⟩
    recurrence := Recurrence.weekly
    is_recurring_parent := true }

/-- A recurring weekly parent due 2024-12-31, near the one-year horizon
measured from 2024-01-01. -/
def horizonParent : OfflineTask :=
  { sampleTaskSynced with
    id := "p2"
    due_date := ⟨299, 31⟩
    recurrence := Recurrence.weekly
    is_recurring_parent := true }

/-- Clock for the scheduler fixtures: 2024-06-03T07:00, two hours
before sampleTaskSynced is due. -/
def schedNow : Int := ((⟨293, 3⟩ : CivilDate).dayNum : Int) * 86400000 + 7 * 3600000

/-- The scheduled-notification record built for sampleTaskSynced with
its original 1-hour lead (fire time 08:00). -/
def staleRec : ScheduledNotificationRec :=
  { id := "n1"
    taskId := "t1"
    title := "Task Due Soon!"
    body := "Standup is due in 1 hour"
    scheduledTime := ((⟨293, 3⟩ : CivilDate).dayNum : Int) * 86400000 + 8 * 3600000
    notificationTime := "1hour"
    taskData := sampleTaskSynced
    sync_status := NotifStatus.pending }

/-- Scheduler state after loading the 1-hour-lead task at 07:00. -/
def schedAfterFirst : SchedulerState :=
  (hookScheduleTaskNotification schedNow true "n1" ⟨[], []⟩ sampleTaskSynced).1

/-- Scheduler state after the task's lead is edited to 10 minutes and
updateTaskNotification runs. -/
def schedAfterUpdate : SchedulerState :=
  (updateTaskNotification schedNow true "n2" schedAfterFirst
    { sampleTaskSynced with notification_time := "10min" }).1

/-! ## Theorems -/

/-- C9: the Local Durable Store read operations getTasks and
getTaskLists never return a record whose sync_status is deleted;
soft-deleted rows are invisible to their callers. -/
theorem store_reads_hide_soft_deleted
    (tasks : List OfflineTask) (lists : List OfflineTaskList) (userId : String) :
    (∀ t ∈ getTasks tasks userId, t.sync_status ≠ SyncStatus.deleted) ∧
    (∀ l ∈ getTaskLists lists userId, l.sync_status ≠ SyncStatus.deleted) := by
  constructor
  · intro t ht
    rw [getTasks, List.mem_filter] at ht
    have h := ht.2
    simp only [decide_eq_true_eq] at h
    exact h.2
  · intro l hl
    rw [getTaskLists, List.mem_filter] at hl
    have h := hl.2
    simp only [decide_eq_true_eq] at h
    exact h.2

/-- Witness for C9 at a concrete two-task, two-list store. -/
theorem store_reads_hide_soft_deleted_witness :
    sampleTaskSynced ∈ getTasks [sampleTaskSynced, sampleTaskDeleted] "u1" ∧
    sampleTaskSynced.sync_status ≠ SyncStatus.deleted ∧
    sampleListSynced ∈ getTaskLists [sampleListSynced, sampleListDeleted] "u1" ∧
    sampleListSynced.sync_status ≠ SyncStatus.deleted := by
  have h := store_reads_hide_soft_deleted [sampleTaskSynced, sampleTaskDeleted]
    [sampleListSynced, sampleListDeleted] "u1"
  refine ⟨by decide, h.1 sampleTaskSynced (by decide), by decide,
    h.2 sampleListSynced (by decide)⟩

/-- C10: the lead-time lookup is total; any string outside the twelve
enumerated options falls back to 10 minutes on the push paths (client
hook and server helper) and 1 hour on the client email path. -/
theorem lead_lookup_total (s : String) (dueMs : Int)
    (h : s ∉ notificationLeadOptions) :
    getNotificationDelay s = 600000 ∧
    emailNotificationDelay s = 3600000 ∧
    serverCalculateNotificationTime dueMs s = dueMs - 600000 := by
  simp only [notificationLeadOptions, List.mem_cons, List.not_mem_nil, or_false,
    not_or] at h
  obtain ⟨h1, h2, h3, h4, h5, h6, h7, h8, h9, h10, h11, h12⟩ := h
  have hmap : timingMapLookup s = Option.none := by
    simp [timingMapLookup, h1, h2, h3, h4, h5, h6, h7, h8, h9, h10, h11, h12]
  refine ⟨?_, ?_, ?_⟩ <;>
    simp [getNotificationDelay, emailNotificationDelay,
      serverCalculateNotificationTime, hmap]

/-- Witness for C10 at the unrecognized lead value soon. -/
theorem lead_lookup_total_witness :
    "soon" ∉ notificationLeadOptions ∧
    getNotificationDelay "soon" = 600000 ∧
    emailNotificationDelay "soon" = 3600000 ∧
    serverCalculateNotificationTime 1000000 "soon" = 1000000 - 600000 :=
  ⟨by decide, lead_lookup_total "soon" 1000000 (by decide)⟩

/-- C1: during a sync drain, a queued task update against an existing
server row is applied iff the server's updated_at is at most the
client timestamp; when the server row is strictly newer a conflict
record carrying the id, entity type, reason and both timestamps is
emitted and the rows are left unchanged. -/
theorem sync_update_conflict_iff
    (db : List ServerTaskRow) (userId changeId payload : String)
    (clientTimestamp nowTs : Nat) (row : ServerTaskRow)
    (hrow : db.find? (fun r => r.id == changeId && r.user_id == userId) = some row) :
    ((handleTaskUpdate db userId changeId payload clientTimestamp nowTs).2 = [] ↔
      row.updated_at ≤ clientTimestamp) ∧
    (row.updated_at ≤ clientTimestamp →
      { row with data := payload, updated_at := nowTs } ∈
          (handleTaskUpdate db userId changeId payload clientTimestamp nowTs).1 ∧
        (handleTaskUpdate db userId changeId payload clientTimestamp nowTs).2 = []) ∧
    (clientTimestamp < row.updated_at →
      (handleTaskUpdate db userId changeId payload clientTimestamp nowTs).1 = db ∧
        (handleTaskUpdate db userId changeId payload clientTimestamp nowTs).2 =
          [{ id := changeId, type := "task", reason := "Server version is newer",
             serverTimestamp := row.updated_at, clientTimestamp := clientTimestamp }]) := by
  have hmem : row ∈ db := List.mem_of_find?_eq_some hrow
  have hpred := List.find?_some hrow
  unfold handleTaskUpdate
  rw [hrow]
  dsimp only
  by_cases hc : clientTimestamp < row.updated_at
  · rw [if_pos hc]
    refine ⟨?_, ?_, fun _ => ⟨rfl, rfl⟩⟩
    · simp
      omega
    · intro hle; omega
  · rw [if_neg hc]
    refine ⟨by simp; omega, ?_, fun hlt => absurd hlt hc⟩
    intro _
    refine ⟨?_, rfl⟩
    have : ({ row with data := payload, updated_at := nowTs } : ServerTaskRow) =
        (fun r => if r.id == changeId && r.user_id == userId then
          { r with data := payload, updated_at := nowTs } else r) row := by
      dsimp only
      rw [if_pos hpred]
    rw [this]
    exact List.mem_map_of_mem _ hmem

/-- Witness for C1: a one-row database, applied when the client
timestamp matches and conflicted when the server is newer. -/
theorem sync_update_conflict_iff_witness :
    ([⟨"t1", "u1", 50, "old"⟩] : List ServerTaskRow).find?
        (fun r => r.id == "t1" && r.user_id == "u1") = some ⟨"t1", "u1", 50, "old"⟩ ∧
    (handleTaskUpdate [⟨"t1", "u1", 50, "old"⟩] "u1" "t1" "new" 50 60).2 = [] ∧
    (handleTaskUpdate [⟨"t1", "u1", 50, "old"⟩] "u1" "t1" "new" 40 60).1 =
      [⟨"t1", "u1", 50, "old"⟩] := by
  have h := sync_update_conflict_iff [⟨"t1", "u1", 50, "old"⟩] "u1" "t1" "new" 50 60
    ⟨"t1", "u1", 50, "old"⟩ (by decide)
  have h2 := sync_update_conflict_iff [⟨"t1", "u1", 50, "old"⟩] "u1" "t1" "new" 40 60
    ⟨"t1", "u1", 50, "old"⟩ (by decide)
  exact ⟨by decide, (h.2.1 (by decide)).2, (h2.2.2 (by decide)).1⟩

theorem drainItem_id (ok : SyncQueueItem → Bool) (a b : SyncQueueItem)
    (h : drainItem ok a = some b) : b.id = a.id := by
  unfold drainItem at h
  split at h
  · exact absurd h (by simp)
  · split at h
    · exact absurd h (by simp)
    · cases h; rfl

theorem drainQueue_ids_sublist (ok : SyncQueueItem → Bool) :
    ∀ queue : List SyncQueueItem,
      List.Sublist ((drainQueue ok queue).map (fun i => i.id))
        (queue.map (fun i => i.id)) := by
  intro queue
  induction queue with
  | nil => exact List.Sublist.refl _
  | cons a rest ih =>
    rw [drainQueue, List.filterMap_cons]
    rw [drainQueue] at ih
    cases hfa : drainItem ok a with
    | none =>
      rw [List.map_cons]
      exact ih.cons a.id
    | some b =>
      rw [List.map_cons, List.map_cons, drainItem_id ok a b hfa]
      exact ih.cons₂ a.id

/-- C3: a sync queue entry failing three consecutive drain attempts is
removed and never presented by a subsequent drain; an entry that has
failed fewer than three times remains with its retry counter
incremented. -/
theorem retry_ceiling (queue : List SyncQueueItem) (it : SyncQueueItem)
    (ok1 ok2 ok3 : SyncQueueItem → Bool)
    (hmem : it ∈ queue) (hretries : it.retries = 0)
    (hnodup : (queue.map (fun i => i.id)).Nodup)
    (h1 : ok1 it = false)
    (h2 : ok2 { it with retries := 1 } = false)
    (h3 : ok3 { it with retries := 2 } = false) :
    { it with retries := 1 } ∈ drainQueue ok1 queue ∧
    { it with retries := 2 } ∈ drainQueue ok2 (drainQueue ok1 queue) ∧
    it.id ∉ (drainQueue ok3 (drainQueue ok2 (drainQueue ok1 queue))).map
      (fun i => i.id) ∧
    (∀ ok4 : SyncQueueItem → Bool,
      it.id ∉ (drainQueue ok4 (drainQueue ok3 (drainQueue ok2
        (drainQueue ok1 queue)))).map (fun i => i.id)) := by
  have hd1 : drainItem ok1 it = some { it with retries := 1 } := by
    unfold drainItem
    rw [h1]
    simp [hretries]
  have hd2 : drainItem ok2 { it with retries := 1 } = some { it with retries := 2 } := by
    unfold drainItem
    rw [h2]
    simp
  have hd3 : drainItem ok3 { it with retries := 2 } = Option.none := by
    unfold drainItem
    rw [h3]
    simp
  have hq1 : ({ it with retries := 1 } : SyncQueueItem) ∈ drainQueue ok1 queue :=
    List.mem_filterMap.mpr ⟨it, hmem, hd1⟩
  have hq2 : ({ it with retries := 2 } : SyncQueueItem) ∈
      drainQueue ok2 (drainQueue ok1 queue) :=
    List.mem_filterMap.mpr ⟨{ it with retries := 1 }, hq1, hd2⟩
  have hnodup2 : ((drainQueue ok2 (drainQueue ok1 queue)).map
      (fun i => i.id)).Nodup :=
    ((drainQueue_ids_sublist ok2 _).trans (drainQueue_ids_sublist ok1 _)).nodup hnodup
  have hq3 : it.id ∉ (drainQueue ok3 (drainQueue ok2 (drainQueue ok1 queue))).map
      (fun i => i.id) := by
    intro hx
    obtain ⟨x, hx3, hxid⟩ := List.mem_map.mp hx
    obtain ⟨y, hy2, hfy⟩ := List.mem_filterMap.mp hx3
    have hyid : y.id = it.id := (drainItem_id ok3 y x hfy).symm.trans hxid
    have hyit : y = { it with retries := 2 } :=
      List.inj_on_of_nodup_map hnodup2 hy2 hq2 hyid
    rw [hyit, hd3] at hfy
    exact Option.noConfusion hfy
  refine ⟨hq1, hq2, hq3, ?_⟩
  intro ok4 hx
  exact hq3 ((drainQueue_ids_sublist ok4 _).subset hx)

/-- Witness for C3: a single queue entry failing every drain. -/
theorem retry_ceiling_witness :
    ({ id := "q1", type := "task", action := "update", data := "d",
       timestamp := 10, retries := 1 } : SyncQueueItem) ∈
      drainQueue (fun _ => false)
        [{ id := "q1", type := "task", action := "update", data := "d",
           timestamp := 10, retries := 0 }] ∧
    "q1" ∉ (drainQueue (fun _ => false) (drainQueue (fun _ => false)
      (drainQueue (fun _ => false)
        [{ id := "q1", type := "task", action := "update", data := "d",
           timestamp := 10, retries := 0 }]))).map (fun i => i.id) := by
  have h := retry_ceiling
    [{ id := "q1", type := "task", action := "update", data := "d",
       timestamp := 10, retries := 0 }]
    { id := "q1", type := "task", action := "update", data := "d",
      timestamp := 10, retries := 0 }
    (fun _ => false) (fun _ => false) (fun _ => false)
    (by decide) (by decide) (by decide) (by decide) (by decide) (by decide)
  exact ⟨h.1, h.2.2.1⟩

/-- C7: for a push-enabled, non-completed task the client scheduler
computes the fire time as the due moment minus the configured lead and
schedules a reminder exactly when that fire time is strictly in the
future; a fire time at or before now schedules nothing. -/
theorem reminder_fire_time (nowMs : Int) (newId : String) (task : OfflineTask)
    (hp : task.push_notification = true) (hc : task.completed = false)
    (ht : task.notification_time ≠ "") :
    scheduleTaskNotification nowMs newId Option.none task =
      if (dueDateTimeMs task : Int) -
          (getNotificationDelay task.notification_time : Int) ≤ nowMs
      then Option.none
      else some
        { id := newId
          taskId := task.id
          title := "Task Due Soon!"
          body := task.title ++ " is due in " ++ getTimingLabel task.notification_time
          scheduledTime := (dueDateTimeMs task : Int) -
            (getNotificationDelay task.notification_time : Int)
          notificationTime := task.notification_time
          taskData := task
          sync_status := NotifStatus.pending } := by
  unfold scheduleTaskNotification
  simp [hp, hc, ht]

/-- Witness for C7: the spec scenario — a task due 2024-06-03T09:00
with a 1-hour lead has fire time 2024-06-03T08:00, and loading it at
08:30 schedules nothing. -/
theorem reminder_fire_time_witness :
    (dueDateTimeMs sampleTaskSynced : Int) -
        (getNotificationDelay "1hour" : Int) =
      ((⟨293, 3⟩ : CivilDate).dayNum : Int) * 86400000 + 8 * 3600000 ∧
    scheduleTaskNotification
      (((⟨293, 3⟩ : CivilDate).dayNum : Int) * 86400000 + 8 * 3600000 + 30 * 60000)
      "n1" Option.none sampleTaskSynced = Option.none := by
  refine ⟨by decide, ?_⟩
  rw [reminder_fire_time _ "n1" sampleTaskSynced (by decide) (by decide) (by decide)]
  rw [if_pos (by decide)]

/-- C8 (behavior at the failing input): after a reminder-affecting
edit, updateTaskNotification removes the persisted record for the old
settings, but the deferred callback registered for them survives in
the timer set and, when it runs, still shows the notification computed
from the old settings — contradicting the requirement that stale
callbacks never fire. -/
theorem stale_callback_fires :
    staleRec ∈ schedAfterUpdate.timers ∧
    schedAfterUpdate.sched.filter (fun n => n.notificationTime = "1hour") = [] ∧
    (fireTimer true schedAfterUpdate staleRec).2 =
      some ⟨"Task Due Soon!", "Standup is due in 1 hour", "t1", "1hour",
        staleRec.scheduledTime⟩ := by decide

theorem nextDueDate_dayNum_daily (base : CivilDate) (i : Nat)
    (hd : 1 ≤ base.day) :
    (nextDueDate Recurrence.daily base i).dayNum = base.dayNum + i := by
  show (normalizeDate base.mo (base.day + i)).dayNum = base.dayNum + i
  rw [normalizeDate_dayNum _ _ (by omega)]
  unfold CivilDate.dayNum
  omega

theorem nextDueDate_dayNum_weekly (base : CivilDate) (i : Nat)
    (hd : 1 ≤ base.day) :
    (nextDueDate Recurrence.weekly base i).dayNum = base.dayNum + 7 * i := by
  show (normalizeDate base.mo (base.day + 7 * i)).dayNum = base.dayNum + 7 * i
  rw [normalizeDate_dayNum _ _ (by omega)]
  unfold CivilDate.dayNum
  omega

theorem nextDueDate_dayNum_monthly (base : CivilDate) (i : Nat)
    (hd : 1 ≤ base.day) :
    (nextDueDate Recurrence.monthly base i).dayNum =
      monthStart (base.mo + i) + (base.day - 1) := by
  show (normalizeDate (base.mo + i) base.day).dayNum = monthStart (base.mo + i) + (base.day - 1)
  rw [normalizeDate_dayNum _ _ hd]

theorem nextDueDate_strict_incr (r : Recurrence) (base : CivilDate) (i : Nat)
    (hr : r ≠ Recurrence.none) (hd : 1 ≤ base.day) :
    (nextDueDate r base i).dayNum < (nextDueDate r base (i + 1)).dayNum := by
  cases r with
  | none => exact absurd rfl hr
  | daily =>
    rw [nextDueDate_dayNum_daily base i hd, nextDueDate_dayNum_daily base (i + 1) hd]
    omega
  | weekly =>
    rw [nextDueDate_dayNum_weekly base i hd, nextDueDate_dayNum_weekly base (i + 1) hd]
    omega
  | monthly =>
    rw [nextDueDate_dayNum_monthly base i hd, nextDueDate_dayNum_monthly base (i + 1) hd]
    have h2 : base.mo + (i + 1) = base.mo + i + 1 := by omega
    rw [h2]
    have := monthStart_lt_succ (base.mo + i)
    omega

theorem nextDueDate_gt_base (r : Recurrence) (base : CivilDate) (i : Nat)
    (hr : r ≠ Recurrence.none) (hd : 1 ≤ base.day) (hi : 1 ≤ i) :
    base.dayNum < (nextDueDate r base i).dayNum := by
  cases r with
  | none => exact absurd rfl hr
  | daily => rw [nextDueDate_dayNum_daily base i hd]; omega
  | weekly => rw [nextDueDate_dayNum_weekly base i hd]; omega
  | monthly =>
    rw [nextDueDate_dayNum_monthly base i hd]
    have := monthStart_strictMono (show base.mo < base.mo + i by omega)
    unfold CivilDate.dayNum
    omega

theorem chain'_map_range' {α : Type} (R : α → α → Prop) (f : Nat → α)
    (hf : ∀ k, R (f k) (f (k + 1))) :
    ∀ n s, List.Chain' R ((List.range' s n).map f) := by
  intro n
  induction n with
  | zero => intro s; simp
  | succ n ih =>
    intro s
    rw [List.range'_succ s n 1, List.map_cons]
    cases n with
    | zero => simp
    | succ m =>
      rw [List.range'_succ (s + 1) m 1, List.map_cons]
      exact List.Chain'.cons (hf s)
        (by rw [← List.map_cons, ← List.range'_succ (s + 1) m 1]; exact ih (s + 1))

/-- The generation loop emits a contiguous range of instance indices
starting at `i`, cut either by fuel exhaustion or by the horizon. -/
theorem genInstancesAux_eq (parent : OfflineTask) (userId : String)
    (freshIds : Nat → String) (nowTs : Nat) (r : Recurrence) (cap : Nat) :
    ∀ fuel i, ∃ n, n ≤ fuel ∧
      genInstancesAux parent userId freshIds nowTs r cap fuel i =
        (List.range' i n).map (fun j =>
          mkRecurringInstance parent userId (freshIds j) nowTs
            (nextDueDate r parent.due_date j)) := by
  intro fuel
  induction fuel with
  | zero => exact fun i => ⟨0, le_rfl, rfl⟩
  | succ fuel ih =>
    intro i
    by_cases hcap : cap < (nextDueDate r parent.due_date i).dayNum
    · refine ⟨0, by omega, ?_⟩
      unfold genInstancesAux
      rw [if_pos hcap]
      rfl
    · obtain ⟨n, hn, he⟩ := ih (i + 1)
      refine ⟨n + 1, by omega, ?_⟩
      unfold genInstancesAux
      rw [if_neg hcap, he, List.range'_succ i n 1, List.map_cons]

theorem genInstancesAux_le_cap (parent : OfflineTask) (userId : String)
    (freshIds : Nat → String) (nowTs : Nat) (r : Recurrence) (cap : Nat) :
    ∀ fuel i, ∀ t ∈ genInstancesAux parent userId freshIds nowTs r cap fuel i,
      t.due_date.dayNum ≤ cap := by
  intro fuel
  induction fuel with
  | zero => intro i t ht; exact absurd ht (List.not_mem_nil t)
  | succ fuel ih =>
    intro i t ht
    unfold genInstancesAux at ht
    by_cases hcap : cap < (nextDueDate r parent.due_date i).dayNum
    · rw [if_pos hcap] at ht
      exact absurd ht (List.not_mem_nil t)
    · rw [if_neg hcap] at ht
      rcases List.mem_cons.mp ht with h | h
      · rw [h]
        show (nextDueDate r parent.due_date i).dayNum ≤ cap
        omega
      · exact ih (i + 1) t h

/-- C2 (amended): for a daily, weekly or monthly parent, the expansion
emits at most the policy cap of instances (30, 52, 12), strictly
ordered by due date, none past today plus one year; daily and weekly
instances step exactly 1 and 7 days; the i-th monthly instance falls
on the base day-of-month carried into the i-th following month under
JavaScript Date overflow normalization. -/
theorem recurrence_expansion_spec (parent : OfflineTask) (r : Recurrence)
    (userId : String) (freshIds : Nat → String) (nowTs : Nat) (today : CivilDate)
    (hr : r ≠ Recurrence.none) (hd : 1 ≤ parent.due_date.day) :
    (generateRecurringInstances parent r (getInstanceCount r) userId freshIds
        nowTs today).length ≤ getInstanceCount r ∧
    List.Chain' (fun a b => a.due_date.dayNum < b.due_date.dayNum)
      (generateRecurringInstances parent r (getInstanceCount r) userId freshIds
        nowTs today) ∧
    (∀ t ∈ generateRecurringInstances parent r (getInstanceCount r) userId freshIds
        nowTs today, t.due_date.dayNum ≤ (oneYearFromNow today).dayNum) ∧
    (r = Recurrence.daily →
      List.Chain' (fun a b => b.due_date.dayNum = a.due_date.dayNum + 1)
        (generateRecurringInstances parent r (getInstanceCount r) userId freshIds
          nowTs today)) ∧
    (r = Recurrence.weekly →
      List.Chain' (fun a b => b.due_date.dayNum = a.due_date.dayNum + 7)
        (generateRecurringInstances parent r (getInstanceCount r) userId freshIds
          nowTs today)) ∧
    (∃ n ≤ getInstanceCount r,
      (generateRecurringInstances parent r (getInstanceCount r) userId freshIds
          nowTs today).map (fun t => t.due_date) =
        (List.range' 1 n).map (fun j => nextDueDate r parent.due_date j)) := by
  obtain ⟨n, hn, he⟩ := genInstancesAux_eq parent userId freshIds nowTs r
    (oneYearFromNow today).dayNum (getInstanceCount r) 1
  have hgen : generateRecurringInstances parent r (getInstanceCount r) userId
      freshIds nowTs today =
      (List.range' 1 n).map (fun j =>
        mkRecurringInstance parent userId (freshIds j) nowTs
          (nextDueDate r parent.due_date j)) := by
    unfold generateRecurringInstances
    rw [if_neg hr]
    exact he
  refine ⟨?_, ?_, ?_, ?_, ?_, ?_⟩
  · rw [hgen, List.length_map, List.length_range']
    exact hn
  · rw [hgen]
    exact chain'_map_range' (fun a b => a.due_date.dayNum < b.due_date.dayNum)
      (fun j => mkRecurringInstance parent userId (freshIds j) nowTs
        (nextDueDate r parent.due_date j))
      (fun k => nextDueDate_strict_incr r parent.due_date k hr hd) n 1
  · intro t ht
    unfold generateRecurringInstances at ht
    rw [if_neg hr] at ht
    exact genInstancesAux_le_cap parent userId freshIds nowTs r _
      (getInstanceCount r) 1 t ht
  · intro hdaily
    subst hdaily
    rw [hgen]
    refine chain'_map_range' _ _ (fun k => ?_) n 1
    show (nextDueDate Recurrence.daily parent.due_date (k + 1)).dayNum =
      (nextDueDate Recurrence.daily parent.due_date k).dayNum + 1
    rw [nextDueDate_dayNum_daily _ _ hd, nextDueDate_dayNum_daily _ _ hd]
    omega
  · intro hweekly
    subst hweekly
    rw [hgen]
    refine chain'_map_range' _ _ (fun k => ?_) n 1
    show (nextDueDate Recurrence.weekly parent.due_date (k + 1)).dayNum =
      (nextDueDate Recurrence.weekly parent.due_date k).dayNum + 7
    rw [nextDueDate_dayNum_weekly _ _ hd, nextDueDate_dayNum_weekly _ _ hd]
    omega
  · refine ⟨n, hn, ?_⟩
    rw [hgen, List.map_map]
    rfl

/-- Witness for C2 (amended) at the weekly parent due 2024-06-03 with
today 2024-06-01. -/
theorem recurrence_expansion_spec_witness :
    (generateRecurringInstances weeklyParent Recurrence.weekly
        (getInstanceCount Recurrence.weekly) "u1" (fun _ => "inst") 7
        ⟨293, 1⟩).length ≤ getInstanceCount Recurrence.weekly ∧
    List.Chain' (fun a b => a.due_date.dayNum < b.due_date.dayNum)
      (generateRecurringInstances weeklyParent Recurrence.weekly
        (getInstanceCount Recurrence.weekly) "u1" (fun _ => "inst") 7
        ⟨293, 1⟩) := by
  have h := recurrence_expansion_spec weeklyParent Recurrence.weekly "u1"
    (fun _ => "inst") 7 ⟨293, 1⟩ (by decide) (by decide)
  exact ⟨h.1, h.2.1⟩

/-- Counterexample for C2 as stated: for the monthly parent due
2024-01-31 (today 2024-01-31) the first two instances fall on
2024-03-02 and 2024-03-31, so the second is not one calendar month
after the first (that would be 2024-04-02). -/
theorem recurrence_monthly_not_one_step :
    (generateRecurringInstances monthlyParent Recurrence.monthly
        (getInstanceCount Recurrence.monthly) "u1" (fun _ => "inst") 0
        ⟨288, 31⟩).map (fun t => t.due_date) =
      [⟨290, 2⟩, ⟨290, 31⟩, ⟨292, 1⟩, ⟨292, 31⟩, ⟨294, 1⟩, ⟨294, 31⟩,
       ⟨295, 31⟩, ⟨297, 1⟩, ⟨297, 31⟩, ⟨299, 1⟩, ⟨299, 31⟩, ⟨300, 31⟩] ∧
    normalizeDate (290 + 1) 2 = ⟨291, 2⟩ ∧
    ¬ List.Chain' (fun a b =>
        b.due_date = normalizeDate (a.due_date.mo + 1) a.due_date.day)
      (generateRecurringInstances monthlyParent Recurrence.monthly
        (getInstanceCount Recurrence.monthly) "u1" (fun _ => "inst") 0
        ⟨288, 31⟩) := by
  refine ⟨by decide, by decide, ?_⟩
  intro hchain
  have hmap : (generateRecurringInstances monthlyParent Recurrence.monthly
      (getInstanceCount Recurrence.monthly) "u1" (fun _ => "inst") 0
      ⟨288, 31⟩).map (fun t => t.due_date) =
      [⟨290, 2⟩, ⟨290, 31⟩, ⟨292, 1⟩, ⟨292, 31⟩, ⟨294, 1⟩, ⟨294, 31⟩,
       ⟨295, 31⟩, ⟨297, 1⟩, ⟨297, 31⟩, ⟨299, 1⟩, ⟨299, 31⟩, ⟨300, 31⟩] := by
    decide
  have hS := (@List.chain'_map _ _
    (fun x y : CivilDate => y = normalizeDate (x.mo + 1) x.day)
    (fun t : OfflineTask => t.due_date) _).mpr hchain
  rw [hmap] at hS
  exact absurd (List.chain'_cons.mp hS).1 (by decide)

/-- C4: every generated instance inherits title, description,
due_time, priority, list id, email_reminder, push_notification and
notification lead verbatim from the parent, has recurrence none,
recurrence_id the parent id, is_recurring_parent false, a strictly
later due date, and local bookkeeping fields set from the generation
context. -/
theorem instance_inheritance (parent : OfflineTask) (r : Recurrence)
    (instanceCount : Nat) (userId : String) (freshIds : Nat → String)
    (nowTs : Nat) (today : CivilDate) (hd : 1 ≤ parent.due_date.day)
    (t : OfflineTask)
    (ht : t ∈ generateRecurringInstances parent r instanceCount userId freshIds
      nowTs today) :
    t.title = parent.title ∧ t.description = parent.description ∧
    t.due_time = parent.due_time ∧ t.priority = parent.priority ∧
    t.list_id = parent.list_id ∧ t.email_reminder = parent.email_reminder ∧
    t.push_notification = parent.push_notification ∧
    t.notification_time = parent.notification_time ∧
    t.recurrence = Recurrence.none ∧ t.recurrence_id = some parent.id ∧
    t.is_recurring_parent = false ∧
    parent.due_date.dayNum < t.due_date.dayNum ∧
    t.user_id = userId ∧ t.sync_status = SyncStatus.pending ∧
    t.created_at = nowTs ∧ t.updated_at = nowTs ∧
    t.offline_created = true ∧ t.completed = false := by
  by_cases hr : r = Recurrence.none
  · rw [generateRecurringInstances, if_pos hr] at ht
    exact absurd ht (List.not_mem_nil t)
  · rw [generateRecurringInstances, if_neg hr] at ht
    obtain ⟨n, hn, he⟩ := genInstancesAux_eq parent userId freshIds nowTs r
      (oneYearFromNow today).dayNum instanceCount 1
    rw [he] at ht
    obtain ⟨j, hj, hjt⟩ := List.mem_map.mp ht
    have hj1 : 1 ≤ j := (List.mem_range'_1.mp hj).1
    subst hjt
    refine ⟨rfl, rfl, rfl, rfl, rfl, rfl, rfl, rfl, rfl, rfl, rfl, ?_,
      rfl, rfl, rfl, rfl, rfl, rfl⟩
    exact nextDueDate_gt_base r parent.due_date j hr hd hj1

/-- Witness for C4: the first instance generated from the weekly
parent. -/
theorem instance_inheritance_witness :
    mkRecurringInstance weeklyParent "u1" "inst" 7 ⟨293, 10⟩ ∈
      generateRecurringInstances weeklyParent Recurrence.weekly 52 "u1"
        (fun _ => "inst") 7 ⟨293, 1⟩ ∧
    (mkRecurringInstance weeklyParent "u1" "inst" 7 ⟨293, 10⟩).recurrence_id =
      some "p1" ∧
    (mkRecurringInstance weeklyParent "u1" "inst" 7 ⟨293, 10⟩).title =
      weeklyParent.title := by
  have h := instance_inheritance weeklyParent Recurrence.weekly 52 "u1"
    (fun _ => "inst") 7 ⟨293, 1⟩ (by decide)
    (mkRecurringInstance weeklyParent "u1" "inst" 7 ⟨293, 10⟩) (by decide)
  exact ⟨by decide, by rw [h.2.2.2.2.2.2.2.2.2.1]; decide, h.1⟩

/-- C5 (amended): marking a task completed regenerates as follows —
for an already-completed task the handler does not run and no instance
is created; for a fresh completion of a series member with resolved
rule `rt`, exactly one next instance (one rule-step forward) is
created if and only if the computed date is within today plus one year
and no non-completed instance of the series already occupies it. -/
theorem completion_regeneration (store : List OfflineTask) (userId id : String)
    (today : CivilDate) (newId : String) (nowTs : Nat) (old : OfflineTask)
    (hfind : store.find? (fun t => t.id == id) = some old) :
    (old.completed = true →
      updateTaskCompletion store userId id today newId nowTs =
        (saveTask store { old with completed := true }, Option.none)) ∧
    (old.completed = false →
      (old.recurrence ≠ Recurrence.none ∨ old.recurrence_id.isSome) →
      ∀ rt : Recurrence,
        rt = (if old.recurrence ≠ Recurrence.none then old.recurrence
          else getParentRecurrenceType (saveTask store { old with completed := true })
            (old.recurrence_id.getD old.id)) →
        rt ≠ Recurrence.none →
        updateTaskCompletion store userId id today newId nowTs =
          (if (nextDueDate rt old.due_date 1).dayNum ≤ (oneYearFromNow today).dayNum ∧
              (getTasks (saveTask store { old with completed := true }) userId).find?
                (fun t => decide (t.recurrence_id = some (old.recurrence_id.getD old.id) ∧
                  t.due_date = nextDueDate rt old.due_date 1 ∧ t.completed = false)) =
                Option.none
          then (saveTask (saveTask store { old with completed := true })
              (mkNextInstance { old with completed := true } userId newId nowTs
                (old.recurrence_id.getD old.id) (nextDueDate rt old.due_date 1)),
            some (mkNextInstance { old with completed := true } userId newId nowTs
              (old.recurrence_id.getD old.id) (nextDueDate rt old.due_date 1)))
          else (saveTask store { old with completed := true }, Option.none))) := by
  constructor
  · intro hcompleted
    unfold updateTaskCompletion
    rw [hfind]
    dsimp only
    rw [if_neg (by simp [hcompleted])]
  · intro hnc hseries rt hrt hrtne
    unfold updateTaskCompletion
    rw [hfind]
    dsimp only
    rw [if_pos ⟨hnc, hseries⟩]
    unfold completeRecurringTask
    dsimp only
    rw [if_pos hseries]
    rw [← hrt, if_pos hrtne]
    unfold generateNextInstance
    dsimp only
    by_cases hh : (oneYearFromNow today).dayNum <
        (nextDueDate rt old.due_date 1).dayNum
    · rw [if_pos hh, if_neg (by omega)]
    · rw [if_neg hh]
      cases hfind2 : (getTasks (saveTask store { old with completed := true })
          userId).find? (fun t =>
            decide (t.recurrence_id = some (old.recurrence_id.getD old.id) ∧
              t.due_date = nextDueDate rt old.due_date 1 ∧
              t.completed = false)) with
      | none =>
        rw [if_pos ⟨by omega, rfl⟩]
      | some w =>
        rw [if_neg (by simp)]

/-- Witness for C5: completing the weekly parent (no instances yet)
creates exactly the next instance one week forward. -/
theorem completion_regeneration_witness :
    (updateTaskCompletion [weeklyParent] "u1" "p1" ⟨293, 1⟩ "n1" 5).2 =
      some (mkNextInstance { weeklyParent with completed := true } "u1" "n1" 5
        "p1" ⟨293, 10⟩) := by
  have h := (completion_regeneration [weeklyParent] "u1" "p1" ⟨293, 1⟩ "n1" 5
    weeklyParent (by decide)).2 (by decide) (by decide) Recurrence.weekly
    (by decide) (by decide)
  rw [h, if_pos (by decide)]
  decide

/-- Counterexample for C5 as stated: completing the not-yet-completed
weekly parent due 2024-12-31 (today 2024-01-01) creates no next
instance even though no non-completed instance of the series occupies
the computed date 2025-01-07 — the handler also requires the date to
lie within today plus one year. -/
theorem completion_horizon_counterexample :
    horizonParent.completed = false ∧
    nextDueDate Recurrence.weekly horizonParent.due_date 1 = ⟨300, 7⟩ ∧
    (getTasks (saveTask [horizonParent] { horizonParent with completed := true })
      "u1").find? (fun t =>
        decide (t.recurrence_id = some "p2" ∧ t.due_date = (⟨300, 7⟩ : CivilDate) ∧
          t.completed = false)) = Option.none ∧
    (updateTaskCompletion [horizonParent] "u1" "p2" ⟨288, 1⟩ "n1" 0).2 =
      Option.none := by decide

theorem mem_foldl_deleteTask :
    ∀ (series store : List OfflineTask) (x : OfflineTask),
      x ∈ series.foldl (fun s t => deleteTask s t.id) store ↔
        x ∈ store ∧ ∀ t ∈ series, x.id ≠ t.id := by
  intro series
  induction series with
  | nil => intro store x; simp
  | cons a rest ih =>
    intro store x
    rw [List.foldl_cons, ih]
    unfold deleteTask
    rw [List.mem_filter]
    simp only [List.forall_mem_cons, decide_eq_true_eq]
    tauto

/-- C6: deleting a recurring parent or any instance of its series
removes every visible task whose id equals the series parent id or
whose recurrence_id equals it; afterwards no visible task of the
series remains. -/
theorem series_deletion_cascade (store : List OfflineTask)
    (userId taskId : String) (isParent : Bool) (p : String)
    (hp : (if isParent then some taskId
        else ((getTasks store userId).find? (fun t => t.id == taskId)).bind
          (fun t => t.recurrence_id)) = some p) :
    (∀ t ∈ getTasks store userId, (t.id = p ∨ t.recurrence_id = some p) →
      t ∉ deleteRecurringSeries store userId taskId isParent) ∧
    (∀ t ∈ getTasks (deleteRecurringSeries store userId taskId isParent) userId,
      t.id ≠ p ∧ t.recurrence_id ≠ some p) := by
  have hres : deleteRecurringSeries store userId taskId isParent =
      ((getTasks store userId).filter (fun t =>
        decide (t.id = p ∨ t.recurrence_id = some p))).foldl
        (fun s t => deleteTask s t.id) store := by
    unfold deleteRecurringSeries
    dsimp only
    rw [hp]
  have hkill : ∀ t ∈ getTasks store userId,
      (t.id = p ∨ t.recurrence_id = some p) →
      t ∉ deleteRecurringSeries store userId taskId isParent := by
    intro t ht hser hmem
    rw [hres, mem_foldl_deleteTask] at hmem
    exact hmem.2 t (List.mem_filter.mpr ⟨ht, by simp [hser]⟩) rfl
  refine ⟨hkill, ?_⟩
  intro t ht
  have htstore : t ∈ deleteRecurringSeries store userId taskId isParent := by
    rw [getTasks, List.mem_filter] at ht
    exact ht.1
  have hprops := by
    rw [getTasks, List.mem_filter] at ht
    exact ht.2
  have htins : t ∈ store := by
    rw [hres, mem_foldl_deleteTask] at htstore
    exact htstore.1
  have htvis : t ∈ getTasks store userId :=
    List.mem_filter.mpr ⟨htins, hprops⟩
  constructor
  · intro hid
    exact hkill t htvis (Or.inl hid) htstore
  · intro hrid
    exact hkill t htvis (Or.inr hrid) htstore

/-- Witness for C6: deleting the instance of a two-task series removes
both the parent and the instance. -/
theorem series_deletion_cascade_witness :
    (if false = true then some "p1"
      else ((getTasks [weeklyParent,
          mkRecurringInstance weeklyParent "u1" "i1" 7 ⟨293, 10⟩] "u1").find?
        (fun t => t.id == "i1")).bind (fun t => t.recurrence_id)) = some "p1" ∧
    weeklyParent ∈ getTasks [weeklyParent,
      mkRecurringInstance weeklyParent "u1" "i1" 7 ⟨293, 10⟩] "u1" ∧
    weeklyParent ∉ deleteRecurringSeries [weeklyParent,
      mkRecurringInstance weeklyParent "u1" "i1" 7 ⟨293, 10⟩] "u1" "i1" false := by
  have h := series_deletion_cascade [weeklyParent,
    mkRecurringInstance weeklyParent "u1" "i1" 7 ⟨293, 10⟩] "u1" "i1" false "p1"
    (by decide)
  exact ⟨by decide, by decide,
    h.1 weeklyParent (by decide) (Or.inl (by decide))⟩
